import Mathlib

/-!
Verification of the `Poco::AtomicCounter` class
(`src/include/Poco/AtomicCounter.h`).

The counter stores a single `ValueType` (`typedef int ValueType;`, a 32-bit
signed integer on all supported platforms).  The header provides three
strategy-specific sets of inline member functions (Windows interlocked,
Mac OS X `OSAtomic*`, and a generic FastMutex-guarded one); all three compute
the same value-level result, so the embedding below models the shared
value-level semantics.  The guarding mutex of the generic strategy has no
effect on the stored value and is elided; each member function is translated
as a function from the counter state to a result paired with the counter state
after the call.

Machine integers are modelled as `Int` together with explicit reduction into
the 32-bit two's-complement range where overflow matters, following the spec's
statement that overflow "follows the wraparound semantics of the underlying
fixed-width signed integer type".
-/

/-- Two's-complement wraparound into the 32-bit signed range
`[-2^31, 2^31)`: the semantics of arithmetic on the counter's `int`
`ValueType`. -/
def wrap32 (n : Int) : Int := (n + 2 ^ 31) % 2 ^ 32 - 2 ^ 31

/-- `v` is representable as a 32-bit signed integer (`int`). -/
def inRange32 (v : Int) : Prop := -(2 ^ 31) ≤ v ∧ v < 2 ^ 31

instance (v : Int) : Decidable (inRange32 v) := by
  unfold inRange32; infer_instance

/-- The unsigned residue of `v` modulo `2^32`: the 32-bit two's-complement
bit pattern of `v`, read as a number in `[0, 2^32)`.  Used to state the
spec's "(v+1) modulo 2^32" wraparound property. -/
def toBits (v : Int) : Int := v % 2 ^ 32

/-- `Poco::AtomicCounter`: the single piece of state is the stored
`ValueType _counter` (for the generic strategy, the `value` field of the
`ImplType` struct; its `mutex` field never influences the stored value and
is elided). -/
structure AtomicCounter where
  _counter : Int

/-- `operator ValueType () const` (lines 244-252, generic strategy):
reads the stored value under the lock and returns it; the counter is left
unchanged (`const` member). -/
def AtomicCounter.toValueType (c : AtomicCounter) : Int × AtomicCounter :=
  let result := c._counter
  (result, c)

/-- `ValueType value() const` (lines 255-263): reads the stored value under
the lock and returns it; the counter is left unchanged. -/
def AtomicCounter.value (c : AtomicCounter) : Int × AtomicCounter :=
  let result := c._counter
  (result, c)

/-- `operator ++ ()` (lines 266-274): `result = ++_counter.value;`
increments the stored value and returns the new value. -/
def AtomicCounter.incPre (c : AtomicCounter) : Int × AtomicCounter :=
  let result := wrap32 (c._counter + 1)
  (result, ⟨result⟩)

/-- `operator ++ (int)` (lines 277-285): `result = _counter.value++;`
increments the stored value and returns the previous value. -/
def AtomicCounter.incPost (c : AtomicCounter) : Int × AtomicCounter :=
  let result := c._counter
  (result, ⟨wrap32 (c._counter + 1)⟩)

/-- `operator -- ()` (lines 288-296): `result = --_counter.value;`
decrements the stored value and returns the new value. -/
def AtomicCounter.decPre (c : AtomicCounter) : Int × AtomicCounter :=
  let result := wrap32 (c._counter - 1)
  (result, ⟨result⟩)

/-- `operator -- (int)` (lines 299-307): `result = _counter.value--;`
decrements the stored value and returns the previous value. -/
def AtomicCounter.decPost (c : AtomicCounter) : Int × AtomicCounter :=
  let result := c._counter
  (result, ⟨wrap32 (c._counter - 1)⟩)

/-- `operator ! () const` (lines 310-318): `result = _counter.value == 0;`
returns whether the stored value is zero; the counter is left unchanged. -/
def AtomicCounter.notOp (c : AtomicCounter) : Bool × AtomicCounter :=
  (c._counter == 0, c)

/-- Modelled from the spec: the default constructor `AtomicCounter()` is
declared in the header (line 78) but defined in `AtomicCounter.cpp`, which is
not under `src/`.  The spec: "`construct()` → new counter with value 0"
and the header doc: "initializes it to zero". -/
def AtomicCounter.mkDefault : AtomicCounter := ⟨0⟩

/-- Modelled from the spec: `AtomicCounter(ValueType initialValue)` is
declared in the header (line 81) but defined in `AtomicCounter.cpp`, which is
not under `src/`.  The spec: "`construct(initial: Integer)` → new counter
with value `initial`". -/
def AtomicCounter.mkInit (v : Int) : AtomicCounter := ⟨v⟩

/-- Modelled from the spec: the copy constructor is declared in the header
(line 85) but defined in `AtomicCounter.cpp`, which is not under `src/`.
The spec: the copy "observes the source's value at the moment of copy, not a
live link". -/
def AtomicCounter.copy (c : AtomicCounter) : AtomicCounter := ⟨c._counter⟩

/-- Modelled from the spec: `operator = (ValueType value)` is declared in the
header (line 94) but defined in `AtomicCounter.cpp`, which is not under
`src/`.  The spec: "`assign(value: Integer)` → atomically sets the stored
value". -/
def AtomicCounter.assign (_c : AtomicCounter) (v : Int) : AtomicCounter := ⟨v⟩

/-- Modelled from the spec: `operator = (const AtomicCounter&)` is declared
in the header (line 91) but defined in `AtomicCounter.cpp`, which is not
under `src/`.  The spec: "`assign(other: AtomicCounter)` → atomically sets
the stored value to a snapshot of `other`'s current value". -/
def AtomicCounter.assignCounter (_c other : AtomicCounter) : AtomicCounter :=
  ⟨other._counter⟩

/-- Execute `n` `increment()` (prefix `operator ++`) calls on the counter.
Each call is a single atomic action (the class's contract: every operation is
"indivisible and totally ordered with respect to all other operations on the
same counter instance"), so any concurrent schedule of `n` identical
`increment()` calls executes them in some total order, and every total order
of `n` identical calls produces exactly this sequential trace.  Returns the
final counter together with the list of values returned by the calls, in
execution order. -/
def runIncrements : Nat → AtomicCounter → AtomicCounter × List Int
  | 0, c => (c, [])
  | n + 1, c =>
    let r := c.incPre
    let rest := runIncrements n r.2
    (rest.1, r.1 :: rest.2)

/-! ### Arithmetic helper lemmas about `wrap32` -/

theorem wrap32_eq_self {v : Int} (h1 : -(2 ^ 31) ≤ v) (h2 : v < 2 ^ 31) :
    wrap32 v = v := by
  unfold wrap32
  omega

theorem wrap32_inRange (v : Int) : inRange32 (wrap32 v) := by
  unfold wrap32 inRange32
  constructor <;> omega

theorem wrap32_add_left (a b : Int) : wrap32 (wrap32 a + b) = wrap32 (a + b) := by
  unfold wrap32
  omega

theorem toBits_wrap32 (v : Int) : toBits (wrap32 v) = toBits v := by
  unfold toBits wrap32
  omega

/-! ### Helper lemmas about `runIncrements` -/

theorem runIncrements_no_overflow (n : Nat) :
    ∀ x : Int, -(2 ^ 31) ≤ x → x + n < 2 ^ 31 →
      runIncrements n ⟨x⟩ =
        (⟨x + n⟩, (List.range n).map fun i : Nat => x + (i : Int) + 1) := by
  induction n with
  | zero => intro x h1 h2; simp [runIncrements]
  | succ n ih =>
    intro x h1 h2
    have hx1 : wrap32 (x + 1) = x + 1 := by
      apply wrap32_eq_self <;> push_cast at h2 ⊢ <;> omega
    have hrest := ih (x + 1) (by omega) (by push_cast at h2 ⊢; omega)
    simp only [runIncrements, AtomicCounter.incPre, hx1, hrest, Prod.mk.injEq,
      AtomicCounter.mk.injEq]
    refine ⟨by push_cast; ring, ?_⟩
    rw [List.range_succ_eq_map, List.map_cons, List.map_map]
    congr 1
    · push_cast; ring
    apply List.map_congr_left
    intro i _
    simp only [Function.comp_apply]
    push_cast
    ring

theorem runIncrements_final (n : Nat) :
    ∀ x : Int, ((runIncrements n ⟨wrap32 x⟩).1)._counter = wrap32 (x + n) := by
  induction n with
  | zero => intro x; simp [runIncrements]
  | succ n ih =>
    intro x
    have hstep : wrap32 (wrap32 x + 1) = wrap32 (x + 1) := wrap32_add_left x 1
    simp only [runIncrements, AtomicCounter.incPre, hstep]
    have := ih (x + 1)
    simp only [this]
    congr 1
    push_cast
    ring

/-! ### A heap model of counter cells, for the copy-construction claim.

The copy constructor's content is that the new counter holds an independent
snapshot of the source's value rather than a live link to it.  To state this,
counters are placed in a heap of integer cells addressed by `Nat`; copy
construction writes the source's current value into a fresh cell, and
mutation acts on a single cell. -/

/-- A heap of counter cells: each address holds the `_counter` value of one
`AtomicCounter` object. -/
def Store := Nat → Int

/-- Read the counter cell at address `a`. -/
def Store.read (s : Store) (a : Nat) : Int := s a

/-- Overwrite the counter cell at address `a` with `v`. -/
def Store.write (s : Store) (a : Nat) (v : Int) : Store :=
  fun x => if x = a then v else s x

/-- Modelled from the spec: the copy constructor (declared at header line 85,
defined in `AtomicCounter.cpp`, which is not under `src/`) creates the fresh
counter object `dst` holding a snapshot of `src`'s value at the moment of
copy — "the copy observes the source's value at the moment of copy, not a
live link". -/
def Store.copyInto (s : Store) (src dst : Nat) : Store :=
  s.write dst (s.read src)

/-- `increment()` (prefix `operator ++`) applied to the counter object at
address `a` of the heap, via the `AtomicCounter.incPre` state change. -/
def Store.incAt (s : Store) (a : Nat) : Store :=
  s.write a (AtomicCounter.incPre ⟨s.read a⟩).2._counter

/-! ### Claim theorems -/

/-- C1 (amended): when `N` concurrent `increment()` calls run on a counter
starting at 0 and `N` does not exceed the largest representable value
`2^31 - 1`, the final value is exactly `N` and the calls return, in execution
order, exactly the values `1, 2, ..., N` (so their multiset, sorted, is
`{1, ..., N}`).  Atomicity of each call means every concurrent schedule
performs the `N` identical calls in some total order, which is exactly
`runIncrements N`. -/
theorem runIncrements_counts_exactly (N : Nat) (h : (N : Int) < 2 ^ 31) :
    (runIncrements N ⟨0⟩).1._counter = (N : Int) ∧
    (runIncrements N ⟨0⟩).2 = (List.range N).map fun i : Nat => (i : Int) + 1 := by
  have hrun := runIncrements_no_overflow N 0 (by norm_num) (by omega)
  rw [hrun]
  constructor
  · show (0 : Int) + (N : Int) = (N : Int)
    ring
  · apply List.map_congr_left
    intro i _
    ring

/-- Witness for C1's theorem at `N = 4`: four increments from 0 end at 4 and
return `[1, 2, 3, 4]`. -/
theorem runIncrements_counts_exactly_witness :
    (runIncrements 4 ⟨0⟩).1._counter = ((4 : Nat) : Int) ∧
    (runIncrements 4 ⟨0⟩).2 = (List.range 4).map fun i : Nat => (i : Int) + 1 :=
  runIncrements_counts_exactly 4 (by norm_num)

/-- Counterexample to C1 as stated ("for every N"): at `N = 2^31` the final
counter value is `wrap32 (2^31) = -(2^31)`, not `2^31` — the 32-bit counter
wraps, so the claim's first conjunct fails. -/
theorem runIncrements_at_two_pow_31 :
    ¬ ((runIncrements (2 ^ 31) ⟨0⟩).1._counter = ((2 ^ 31 : Nat) : Int) ∧
       (runIncrements (2 ^ 31) ⟨0⟩).2 =
         (List.range (2 ^ 31)).map fun i : Nat => (i : Int) + 1) := by
  intro hcl
  have h0 : (0 : Int) = wrap32 0 := by norm_num [wrap32]
  have h := runIncrements_final (2 ^ 31) 0
  rw [← h0] at h
  rw [hcl.1] at h
  simp only [wrap32] at h
  push_cast at h

/-- C2 (amended): for a counter at value `v` with `v ≠ 2^31 - 1` (so that
`v + 1` is representable), postfix increment returns `v` and leaves the
counter at `v + 1`, and prefix increment returns `v + 1` and leaves the
counter at `v + 1`.  (At `v = 2^31 - 1` the stored value wraps to `-(2^31)`
instead.) -/
theorem incPost_incPre_spec (c : AtomicCounter) (h1 : inRange32 c._counter)
    (h2 : c._counter ≠ 2 ^ 31 - 1) :
    c.incPost.1 = c._counter ∧
    c.incPost.2._counter = c._counter + 1 ∧
    c.incPre.1 = c._counter + 1 ∧
    c.incPre.2._counter = c._counter + 1 := by
  obtain ⟨hl, hr⟩ := h1
  have hw : wrap32 (c._counter + 1) = c._counter + 1 :=
    wrap32_eq_self (by omega) (by omega)
  exact ⟨rfl, by simp [AtomicCounter.incPost, hw],
    by simp [AtomicCounter.incPre, hw], by simp [AtomicCounter.incPre, hw]⟩

/-- Witness for C2's theorem at the spec's example value 5: `incrementPost()`
returns 5 and the counter then holds 6; `increment()` on a counter at 5
returns 6 and the counter holds 6. -/
theorem incPost_incPre_spec_witness :
    (AtomicCounter.mk 5).incPost.1 = 5 ∧
    (AtomicCounter.mk 5).incPost.2._counter = 6 ∧
    (AtomicCounter.mk 5).incPre.1 = 6 ∧
    (AtomicCounter.mk 5).incPre.2._counter = 6 := by
  simpa using incPost_incPre_spec ⟨5⟩ (by norm_num [inRange32]) (by norm_num)

/-- Counterexample to C2 as stated ("for every v"): at `v = 2^31 - 1` (the
largest representable value), postfix increment leaves the counter at
`-(2^31)`, not at `v + 1 = 2^31`. -/
theorem incPost_at_int_max :
    ¬ ((AtomicCounter.mk (2 ^ 31 - 1)).incPost.2._counter = (2 ^ 31 - 1) + 1) := by
  norm_num [AtomicCounter.incPost, wrap32]

/-- C3 (amended): for a counter at value `v` with `v ≠ -(2^31)` (so that
`v - 1` is representable), postfix decrement returns `v` and leaves the
counter at `v - 1`, and prefix decrement returns `v - 1` and leaves the
counter at `v - 1`.  (At `v = -(2^31)` the stored value wraps to `2^31 - 1`
instead.) -/
theorem decPost_decPre_spec (c : AtomicCounter) (h1 : inRange32 c._counter)
    (h2 : c._counter ≠ -(2 ^ 31)) :
    c.decPost.1 = c._counter ∧
    c.decPost.2._counter = c._counter - 1 ∧
    c.decPre.1 = c._counter - 1 ∧
    c.decPre.2._counter = c._counter - 1 := by
  obtain ⟨hl, hr⟩ := h1
  have hw : wrap32 (c._counter - 1) = c._counter - 1 :=
    wrap32_eq_self (by omega) (by omega)
  exact ⟨rfl, by simp [AtomicCounter.decPost, hw],
    by simp [AtomicCounter.decPre, hw], by simp [AtomicCounter.decPre, hw]⟩

/-- Witness for C3's theorem at the spec's example value 5: `decrementPost()`
returns 5 and the counter then holds 4; `decrement()` on a counter at 4
returns 3 and the counter holds 3. -/
theorem decPost_decPre_spec_witness :
    ((AtomicCounter.mk 5).decPost.1 = 5 ∧
     (AtomicCounter.mk 5).decPost.2._counter = 4) ∧
    ((AtomicCounter.mk 4).decPre.1 = 3 ∧
     (AtomicCounter.mk 4).decPre.2._counter = 3) := by
  have h5 := decPost_decPre_spec ⟨5⟩ (by norm_num [inRange32]) (by norm_num)
  have h4 := decPost_decPre_spec ⟨4⟩ (by norm_num [inRange32]) (by norm_num)
  simp only [AtomicCounter.mk.injEq] at h5 h4 ⊢
  exact ⟨⟨h5.1, by simpa using h5.2.1⟩, ⟨by simpa using h4.2.2.1, by simpa using h4.2.2.2⟩⟩

/-- Counterexample to C3 as stated ("for every v"): at `v = -(2^31)` (the
smallest representable value), postfix decrement leaves the counter at
`2^31 - 1`, not at `v - 1 = -(2^31) - 1`. -/
theorem decPost_at_int_min :
    ¬ ((AtomicCounter.mk (-(2 ^ 31))).decPost.2._counter = -(2 ^ 31) - 1) := by
  norm_num [AtomicCounter.decPost, wrap32]

/-- C4: a counter constructed with an initial value `v` in the representable
range reads back `v`, and a default-constructed counter reads back 0. -/
theorem construct_read (v : Int) (h : inRange32 v) :
    (AtomicCounter.mkInit v).value.1 = v ∧
    AtomicCounter.mkDefault.value.1 = 0 :=
  ⟨rfl, rfl⟩

/-- Witness for C4's theorem at `v = 7`. -/
theorem construct_read_witness :
    (AtomicCounter.mkInit 7).value.1 = 7 ∧
    AtomicCounter.mkDefault.value.1 = 0 :=
  construct_read 7 (by norm_num [inRange32])

/-- C5: `operator !` returns true if and only if the counter's current value
is 0. -/
theorem notOp_iff_zero (c : AtomicCounter) :
    c.notOp.1 = true ↔ c.value.1 = 0 := by
  simp [AtomicCounter.notOp, AtomicCounter.value]

/-- C6: increment and decrement follow 32-bit two's-complement wraparound:
the bit pattern (unsigned residue mod `2^32`) of the stored value after an
increment is the old pattern plus 1 mod `2^32`, after a decrement the old
pattern minus 1 mod `2^32`; postfix and prefix forms produce the same new
state; results stay in the representable range; and in particular
incrementing at the maximum value `2^31 - 1` wraps to the minimum `-(2^31)`,
with no guard or error. -/
theorem wraparound_semantics :
    (∀ c : AtomicCounter,
        toBits c.incPre.2._counter = (toBits c._counter + 1) % 2 ^ 32 ∧
        toBits c.decPre.2._counter = (toBits c._counter - 1) % 2 ^ 32 ∧
        c.incPost.2 = c.incPre.2 ∧
        c.decPost.2 = c.decPre.2 ∧
        inRange32 c.incPre.2._counter ∧
        inRange32 c.decPre.2._counter) ∧
    (AtomicCounter.mk (2 ^ 31 - 1)).incPre.2._counter = -(2 ^ 31) := by
  constructor
  · intro c
    refine ⟨?_, ?_, rfl, rfl, wrap32_inRange _, wrap32_inRange _⟩
    · show toBits (wrap32 (c._counter + 1)) = _
      rw [toBits_wrap32]
      unfold toBits
      omega
    · show toBits (wrap32 (c._counter - 1)) = _
      rw [toBits_wrap32]
      unfold toBits
      omega
  · norm_num [AtomicCounter.incPre, wrap32]

/-- C7: copy construction takes a snapshot.  In the heap model, if cell `b`
is created as a copy of counter cell `a` (with `b` a fresh address, `b ≠ a`),
then `b` reads `a`'s value; after subsequently incrementing `a`, `b`'s value
is unchanged while `a` holds the incremented value: the two counters share no
live link. -/
theorem copy_snapshot (s : Store) (a b : Nat) (hab : b ≠ a) :
    (s.copyInto a b).read b = s.read a ∧
    ((s.copyInto a b).incAt a).read b = s.read a ∧
    ((s.copyInto a b).incAt a).read a = wrap32 (s.read a + 1) := by
  have hba : a ≠ b := hab.symm
  simp [Store.copyInto, Store.incAt, Store.write, Store.read,
    AtomicCounter.incPre, hab, hba]

/-- Witness for C7's theorem, at the spec's example: counter `a` (address 0)
holds 10; the copy `b` (fresh address 1) reads 10, and after `a.increment()`
the copy still reads 10 while `a` reads 11. -/
theorem copy_snapshot_witness :
    (Store.copyInto (fun _ => (10 : Int)) 0 1).read 1 = 10 ∧
    ((Store.copyInto (fun _ => (10 : Int)) 0 1).incAt 0).read 1 = 10 ∧
    ((Store.copyInto (fun _ => (10 : Int)) 0 1).incAt 0).read 0 = 11 := by
  have h := copy_snapshot (fun _ => (10 : Int)) 0 1 (by norm_num)
  have hw : wrap32 ((10 : Int) + 1) = 11 := by norm_num [wrap32]
  simpa [Store.read, hw] using h

/-- C8: every operation of the counter is total on representable inputs: each
is a function returning a plain (non-optional) result — there is no
panic/throw/error path in the model — and every produced counter value and
returned integer lies in the representable 32-bit range, so no call escapes
the normal contract. -/
theorem ops_never_fail (c other : AtomicCounter) (v : Int)
    (hc : inRange32 c._counter) (hother : inRange32 other._counter)
    (hv : inRange32 v) :
    inRange32 AtomicCounter.mkDefault._counter ∧
    inRange32 (AtomicCounter.mkInit v)._counter ∧
    inRange32 c.copy._counter ∧
    inRange32 (c.assign v)._counter ∧
    inRange32 (c.assignCounter other)._counter ∧
    inRange32 c.value.1 ∧
    inRange32 c.toValueType.1 ∧
    inRange32 c.incPre.1 ∧ inRange32 c.incPre.2._counter ∧
    inRange32 c.incPost.1 ∧ inRange32 c.incPost.2._counter ∧
    inRange32 c.decPre.1 ∧ inRange32 c.decPre.2._counter ∧
    inRange32 c.decPost.1 ∧ inRange32 c.decPost.2._counter ∧
    (c.notOp.1 = true ∨ c.notOp.1 = false) := by
  refine ⟨by norm_num [AtomicCounter.mkDefault, inRange32], hv, hc, hv, hother,
    hc, hc, wrap32_inRange _, wrap32_inRange _, hc, wrap32_inRange _,
    wrap32_inRange _, wrap32_inRange _, hc, wrap32_inRange _, ?_⟩
  cases c.notOp.1
  · exact Or.inr rfl
  · exact Or.inl rfl

/-- Witness for C8's theorem at `c = ⟨3⟩`, `other = ⟨-4⟩`, `v = 7`. -/
theorem ops_never_fail_witness :
    inRange32 AtomicCounter.mkDefault._counter ∧
    inRange32 (AtomicCounter.mkInit 7)._counter ∧
    inRange32 (AtomicCounter.mk 3).copy._counter ∧
    inRange32 ((AtomicCounter.mk 3).assign 7)._counter ∧
    inRange32 ((AtomicCounter.mk 3).assignCounter ⟨-4⟩)._counter ∧
    inRange32 (AtomicCounter.mk 3).value.1 ∧
    inRange32 (AtomicCounter.mk 3).toValueType.1 ∧
    inRange32 (AtomicCounter.mk 3).incPre.1 ∧
    inRange32 (AtomicCounter.mk 3).incPre.2._counter ∧
    inRange32 (AtomicCounter.mk 3).incPost.1 ∧
    inRange32 (AtomicCounter.mk 3).incPost.2._counter ∧
    inRange32 (AtomicCounter.mk 3).decPre.1 ∧
    inRange32 (AtomicCounter.mk 3).decPre.2._counter ∧
    inRange32 (AtomicCounter.mk 3).decPost.1 ∧
    inRange32 (AtomicCounter.mk 3).decPost.2._counter ∧
    ((AtomicCounter.mk 3).notOp.1 = true ∨ (AtomicCounter.mk 3).notOp.1 = false) :=
  ops_never_fail ⟨3⟩ ⟨-4⟩ 7 (by norm_num [inRange32]) (by norm_num [inRange32])
    (by norm_num [inRange32])

/-- C9: the named accessor `value()` and the conversion `operator ValueType`
are equivalent: they return the same value, and neither changes the counter's
state. -/
theorem value_conversion_equiv (c : AtomicCounter) :
    c.toValueType.1 = c.value.1 ∧ c.toValueType.2 = c ∧ c.value.2 = c :=
  ⟨rfl, rfl, rfl⟩

/-- C10: every read-only operation — `value()`, the conversion
`operator ValueType`, and `operator !` — leaves the counter's stored value
unchanged: the state after the call equals the state before. -/
theorem readonly_ops_frame (c : AtomicCounter) :
    c.value.2 = c ∧ c.toValueType.2 = c ∧ c.notOp.2 = c :=
  ⟨rfl, rfl, rfl⟩
